import Mathlib

/-!
Shallow embedding of the core runtime of the `proctor` package:

* `src/proctor/utils.py` — the LLM invocation client `call_llm` with its
  validation checks and retry/backoff loop;
* `src/proctor/base.py` — `PromptTechnique.execute` and
  `CompositeTechnique.generate_prompt`;
* `src/proctor/__init__.py` — the technique registry `ALL_TECHNIQUES`,
  `list_techniques` and `get_technique` with the lazy instance cache
  `_TECHNIQUE_INSTANCES`.

Control-flow-relevant state (the transport outcome of each attempt, the
instance cache) is passed explicitly; fallible code returns `Except`.
-/

/-- A Python value passed as the `prompt` argument of `call_llm`: either a
`str` (possibly empty) or a value of some other type, for which
`isinstance(prompt, str)` fails. -/
inductive PyVal where
  | pstr (s : String)
  | nonString
  deriving DecidableEq

/-- The message object of a completion choice (`choices[i].message`);
`content` is its string payload, possibly empty. -/
structure ChoiceMessage where
  content : String
  deriving DecidableEq

/-- One completion choice of a transport-level response. `message` is `none`
when the choice has no message object (the object is falsy). -/
structure Choice where
  message : Option ChoiceMessage
  deriving DecidableEq

/-- Transport-level exceptions raised by `litellm.completion`, at the
granularity `call_llm` distinguishes them: the four classes of the
retryable `except` tuple in utils.py lines 142-147 (`RateLimitError`,
`BadRequestError`, `OpenAIError`, `ServiceUnavailableError`), plus
representatives of everything else, which falls through to the generic
`except Exception` handler at line 164. -/
inductive TransportError where
  | rateLimitError (msg : String)
  | badRequestError (msg : String)
  | openAIError (msg : String)
  | serviceUnavailableError (msg : String)
  | authenticationError (msg : String)
  | otherException (msg : String)
  deriving DecidableEq

/-- Whether the exception is caught by the retryable `except` tuple of
`call_llm` (utils.py lines 142-147). Note the tuple includes
`BadRequestError`. -/
def isRetryable : TransportError → Bool
  | .rateLimitError _ => true
  | .badRequestError _ => true
  | .openAIError _ => true
  | .serviceUnavailableError _ => true
  | .authenticationError _ => false
  | .otherException _ => false

/-- The outcome of one `litellm.completion` call: a response object carrying
its list of choices, or a raised exception. -/
inductive TransportResult where
  | resp (choices : List Choice)
  | exn (e : TransportError)
  deriving DecidableEq

/-- The distinct error exits of `call_llm`, one constructor per raise site:
`valueError` for the prompt validation `ValueError` (line 77),
`missingApiKey` for the missing-credential `LLMError` (line 88),
`unexpectedFormat` for the unexpected-response-format `LLMError` (line 140,
re-wrapped by the generic handler at line 167), `nonRetryable e` for the
generic-handler `LLMError` wrapping exception `e` (line 167), `exhausted`
for the post-loop `LLMError` formatting `max_retries` and `last_error`
(line 172), and `unknownError` for the fallback at line 175. -/
inductive CallError where
  | valueError
  | missingApiKey
  | unexpectedFormat
  | nonRetryable (e : TransportError)
  | exhausted (max_retries : Nat) (lastError : TransportError)
  | unknownError
  deriving DecidableEq

/-- The observable behaviour of one `call_llm` invocation: its return value
or raised error, the number of transport calls it made, and the backoff
sleep durations in the order they occurred. -/
structure CallTrace where
  result : Except CallError String
  calls : Nat
  sleeps : List Nat

/-- The response processing of `call_llm` (utils.py lines 133-140):
`response.choices` must be non-empty and `response.choices[0].message`
truthy; then `choices[0].message.content` is returned. The content string
itself is not inspected. -/
def respContent : List Choice → Option String
  | [] => none
  | c :: _ =>
    match c.message with
    | some m => some m.content
    | none => none

/-- The post-loop code of `call_llm` (utils.py lines 169-175): raise the
exhausted-retries `LLMError` built from `max_retries` and `last_error`
when a retryable failure was recorded, else the fallback unknown error. -/
def exhaustedExit (maxRetries : Nat) (lastError : Option TransportError) : CallTrace :=
  match lastError with
  | some e => ⟨.error (.exhausted maxRetries e), 0, []⟩
  | none => ⟨.error .unknownError, 0, []⟩

/-- The retry loop of `call_llm` (utils.py lines 107-175). `transport n` is
the outcome of the n-th `litellm.completion` call; `attempts` mirrors the
Python counter, which at each loop head equals the number of transport
calls already made, so the n-th call is `transport attempts`. The inner
`attempts + 1 ≤ maxRetries` test mirrors `if attempts <= max_retries`
executed after `attempts += 1`: on success it sleeps `2 ** attempts` and
loops; on failure the Python loop breaks and the post-loop code
(`exhaustedExit`) raises the exhausted-retries `LLMError` from
`last_error`, which at that point is the exception just caught — the
break branch below is that composition, with the call of the current
iteration counted. The returned trace counts transport calls and sleeps
made from this point on. -/
def callLoop (transport : Nat → TransportResult) (maxRetries : Nat)
    (attempts : Nat) (lastError : Option TransportError) : CallTrace :=
  if attempts ≤ maxRetries then
    match transport attempts with
    | .resp choices =>
      match respContent choices with
      | some content => ⟨.ok content, 1, []⟩
      | none => ⟨.error .unexpectedFormat, 1, []⟩
    | .exn e =>
      if isRetryable e then
        if _h : attempts + 1 ≤ maxRetries then
          let rest := callLoop transport maxRetries (attempts + 1) (some e)
          ⟨rest.result, rest.calls + 1, 2 ^ (attempts + 1) :: rest.sleeps⟩
        else
          ⟨.error (.exhausted maxRetries e), 1, []⟩
      else
        ⟨.error (.nonRetryable e), 1, []⟩
  else
    exhaustedExit maxRetries lastError
termination_by maxRetries + 1 - attempts
decreasing_by omega

/-- The invocation client `call_llm` (utils.py lines 55-175). It is
parameterized by the resolved configuration's `api_key` — the value of
`config.get("api_key")` after defaults, environment and `config_override`
are merged (`none` models an absent key) — and by the transport oracle
giving each `litellm.completion` outcome. Message construction and the
request fields forwarded to the transport do not affect control flow and
are not modeled. The Python validation `if not prompt or not
isinstance(prompt, str)` rejects exactly the empty string and every
non-string value. -/
def call_llm (prompt : PyVal) (api_key : Option String)
    (transport : Nat → TransportResult) (max_retries : Nat) : CallTrace :=
  match prompt with
  | .pstr s =>
    if s = "" then ⟨.error .valueError, 0, []⟩
    else if api_key.getD "" = "" then ⟨.error .missingApiKey, 0, []⟩
    else callLoop transport max_retries 0 none
  | .nonString => ⟨.error .valueError, 0, []⟩

/-- Whether a `call_llm` failure is an `LLMError` — every raise site of
`call_llm` except the prompt-validation `ValueError` at utils.py line 77.
The `except LLMError` clause at base.py lines 88-91 re-raises exactly
these. -/
def CallError.isLLMError : CallError → Bool
  | .valueError => false
  | .missingApiKey => true
  | .unexpectedFormat => true
  | .nonRetryable _ => true
  | .exhausted _ _ => true
  | .unknownError => true

/-- The error surfaced by `PromptTechnique.execute`: either an `LLMError`
from `call_llm` re-raised unchanged (base.py line 91), or the
`RuntimeError` that the generic `except Exception` handler at base.py
lines 93-95 wraps around any other exception raised inside the try block —
in particular around `call_llm`'s validation `ValueError`. -/
inductive ExecError where
  | llmError (e : CallError)
  | runtimeError (wrapped : CallError)
  deriving DecidableEq

/-- The observable behaviour of one `PromptTechnique.execute` invocation:
its return value or raised error, and the transport calls and backoff
sleeps made by the underlying `call_llm` invocation. -/
structure ExecTrace where
  result : Except ExecError String
  calls : Nat
  sleeps : List Nat

/-- The execution facade `PromptTechnique.execute` (base.py lines 42-95):
it calls the technique's `generate_prompt` on the input text outside the
try block (line 79; here `gen` is the technique's `generate_prompt` with
its keyword options already applied), then invokes `call_llm` inside a
`try` whose handlers re-raise an `LLMError` unchanged (lines 88-91) and
wrap every other exception — notably the validation `ValueError` that
`call_llm` raises on an empty or non-string prompt — in a `RuntimeError`
(lines 93-95). -/
def PromptTechnique.execute (gen : String → PyVal) (input_text : String)
    (api_key : Option String) (transport : Nat → TransportResult)
    (max_retries : Nat) : ExecTrace :=
  let t := call_llm (gen input_text) api_key transport max_retries
  { result :=
      match t.result with
      | .ok content => .ok content
      | .error e =>
        if e.isLLMError then .error (.llmError e) else .error (.runtimeError e),
    calls := t.calls,
    sleeps := t.sleeps }

/-- The technique capability as `CompositeTechnique.generate_prompt`
consumes it: `generate_prompt` takes the input text and the shared keyword
options and either returns the generated prompt string or raises a
validation error (modeled by `Except.error`). -/
structure PromptTechnique (Opts : Type) where
  generate_prompt : String → Opts → Except String String

/-- `CompositeTechnique.generate_prompt` (base.py lines 128-143): starts
from the input text and iterates the technique list in order, feeding each
stage's output to the next with the same options; a raised validation
error propagates, aborting the remaining stages. -/
def CompositeTechnique.generate_prompt {Opts : Type}
    (techniques : List (PromptTechnique Opts)) (input_text : String)
    (opts : Opts) : Except String String :=
  match techniques with
  | [] => .ok input_text
  | t :: rest =>
    match t.generate_prompt input_text opts with
    | .ok p => CompositeTechnique.generate_prompt rest p opts
    | .error err => .error err

/-- One entry of the `ALL_TECHNIQUES` registry dictionary
(`__init__.py` lines 93-152): the dictionary key and the `identifier`
the registered class passes to `PromptTechnique.__init__` when
instantiated with no arguments. -/
structure RegEntry where
  name : String
  identifier : String
  deriving DecidableEq

/-- The `ALL_TECHNIQUES` registry (`__init__.py` lines 93-152) in
dictionary insertion order, with each class's default `identifier` taken
from its `__init__` in the technique modules. -/
def ALL_TECHNIQUES : List RegEntry := [
  ⟨"emotion_prompting", "2.2.2.1"⟩,
  ⟨"role_prompting", "2.2.2.2"⟩,
  ⟨"style_prompting", "2.2.2.3"⟩,
  ⟨"s2a", "2.2.2.4"⟩,
  ⟨"simtom", "2.2.2.5"⟩,
  ⟨"rar", "2.2.2.6"⟩,
  ⟨"rf2", "2.2.2.7"⟩,
  ⟨"self_ask", "2.2.2.8"⟩,
  ⟨"example_generation", "2.2.1.1"⟩,
  ⟨"example_ordering", "2.2.1.1"⟩,
  ⟨"exemplar_selection", "2.2.1.2"⟩,
  ⟨"sgicl", "2.2.1.2"⟩,
  ⟨"vote_k", "2.2.1.2"⟩,
  ⟨"prompt_mining", "2.2.1.2"⟩,
  ⟨"knn", "2.2.1.2"⟩,
  ⟨"chain_of_thought", "2.2.3"⟩,
  ⟨"zero_shot_cot", "2.2.3.1"⟩,
  ⟨"few_shot_cot", "2.2.3.2"⟩,
  ⟨"analogical_prompting", "2.2.3.1"⟩,
  ⟨"step_back_prompting", "2.2.3.1"⟩,
  ⟨"thread_of_thought", "2.2.3.1"⟩,
  ⟨"tab_cot", "2.2.3.1"⟩,
  ⟨"active_prompt", "2.2.3.2"⟩,
  ⟨"auto_cot", "2.2.3.2"⟩,
  ⟨"complexity_based", "2.2.3.2"⟩,
  ⟨"contrastive", "2.2.3.2"⟩,
  ⟨"memory_of_thought", "2.2.3.2"⟩,
  ⟨"uncertainty_routed", "2.2.3.2"⟩,
  ⟨"self_consistency", "2.2.5"⟩,
  ⟨"cosp", "2.2.5"⟩,
  ⟨"dense", "2.2.5"⟩,
  ⟨"diverse", "2.2.5"⟩,
  ⟨"max_mutual_information", "2.2.5"⟩,
  ⟨"meta_cot", "2.2.5"⟩,
  ⟨"more", "2.2.5"⟩,
  ⟨"universal_self_consistency", "2.2.5"⟩,
  ⟨"usp", "2.2.5"⟩,
  ⟨"prompt_paraphrasing", "2.2.5"⟩,
  ⟨"chain_of_verification", "2.2.6"⟩,
  ⟨"self_calibration", "2.2.6"⟩,
  ⟨"self_refine", "2.2.6"⟩,
  ⟨"self_verification", "2.2.6"⟩,
  ⟨"reverse_cot", "2.2.6"⟩,
  ⟨"cumulative_reasoning", "2.2.6"⟩,
  ⟨"decomp", "2.2.4"⟩,
  ⟨"faithful_cot", "2.2.4"⟩,
  ⟨"least_to_most", "2.2.4"⟩,
  ⟨"plan_and_solve", "2.2.4"⟩,
  ⟨"program_of_thought", "2.2.4"⟩,
  ⟨"recursion_of_thought", "2.2.4"⟩,
  ⟨"skeleton_of_thought", "2.2.4"⟩,
  ⟨"tree_of_thought", "2.2.4"⟩]

/-- A cached technique instance, as created by `technique_cls()`: its
`name` and `identifier` come from the class defaults (the registry entry),
and `serial` models Python object identity — each construction yields a
fresh serial, so two instances are the same object iff all fields agree. -/
structure TechniqueInstance where
  name : String
  identifier : String
  serial : Nat
  deriving DecidableEq

/-- The mutable module state of `__init__.py`: the `_TECHNIQUE_INSTANCES`
cache (key/instance pairs in insertion order) and the next fresh instance
serial. -/
structure RegState where
  cache : List (String × TechniqueInstance)
  nextSerial : Nat
  deriving DecidableEq

/-- Dictionary lookup in the `_TECHNIQUE_INSTANCES` cache: first (and,
since keys are checked before insertion, only) binding of the name. -/
def cacheLookup : List (String × TechniqueInstance) → String → Option TechniqueInstance
  | [], _ => none
  | kv :: rest, n => if kv.1 = n then some kv.2 else cacheLookup rest n

/-- The state at module import time: empty `_TECHNIQUE_INSTANCES`. -/
def initialRegState : RegState := ⟨[], 0⟩

/-- Python's `identifier.startswith(category)` on code-point sequences. -/
def pyStartsWith (s p : String) : Bool := p.data.isPrefixOf s.data

/-- The lazy-population step shared by `list_techniques` (lines 176-178)
and `get_technique` (lines 206-211): if the name is not yet cached,
instantiate the class (fields from the registry entry, fresh serial) and
append the binding to the cache. -/
def ensureCached (e : RegEntry) (st : RegState) : RegState :=
  match cacheLookup st.cache e.name with
  | some _ => st
  | none => ⟨st.cache ++ [(e.name, ⟨e.name, e.identifier, st.nextSerial⟩)], st.nextSerial + 1⟩

/-- `get_technique` (`__init__.py` lines 187-213): return the cached
instance if present; otherwise look the class up in `ALL_TECHNIQUES`,
instantiate, cache and return it; return `None` for unknown names. The
pair is (returned value, module state afterwards). -/
def get_technique (name : String) (st : RegState) : Option TechniqueInstance × RegState :=
  match cacheLookup st.cache name with
  | some inst => (some inst, st)
  | none =>
    match ALL_TECHNIQUES.find? (fun e => e.name == name) with
    | some e =>
      (some ⟨e.name, e.identifier, st.nextSerial⟩,
       ⟨st.cache ++ [(name, ⟨e.name, e.identifier, st.nextSerial⟩)], st.nextSerial + 1⟩)
    | none => (none, st)

/-- The filtering loop of `list_techniques` (`__init__.py` lines 173-184):
for every registry entry, in order, ensure a cached instance exists, then
append the name to the accumulator when the cached instance's identifier
starts with the category string. -/
def listLoop (c : String) : List RegEntry → RegState → List String → List String × RegState
  | [], st, acc => (acc, st)
  | e :: rest, st, acc =>
    match cacheLookup (ensureCached e st).cache e.name with
    | some inst =>
      if pyStartsWith inst.identifier c then
        listLoop c rest (ensureCached e st) (acc ++ [e.name])
      else
        listLoop c rest (ensureCached e st) acc
    | none => listLoop c rest (ensureCached e st) acc

/-- `list_techniques` (`__init__.py` lines 158-184): with a falsy category
(`None` or the empty string) it returns all registry keys without touching
the cache; otherwise it runs the filtering loop. -/
def list_techniques (category : Option String) (st : RegState) : List String × RegState :=
  match category with
  | none => (ALL_TECHNIQUES.map (·.name), st)
  | some c =>
    if c = "" then (ALL_TECHNIQUES.map (·.name), st)
    else listLoop c ALL_TECHNIQUES st []

/-- Invariant of the module state: every cached instance was created from
the registry entry of its key, so its identifier agrees with every
registry entry bearing that name. Holds at import time and is preserved by
`get_technique` and `list_techniques`, which only insert instances built
from registry entries. -/
def CacheIdentOK (st : RegState) : Prop :=
  ∀ n inst, cacheLookup st.cache n = some inst →
    ∀ e ∈ ALL_TECHNIQUES, e.name = n → inst.identifier = e.identifier

/-- Invariant of the module state: every cached key is a registered name.
Holds at import time and is preserved by the two registry operations,
which only ever insert keys found in `ALL_TECHNIQUES`. -/
def CacheNamesRegistered (st : RegState) : Prop :=
  ∀ n inst, cacheLookup st.cache n = some inst → ∃ e ∈ ALL_TECHNIQUES, e.name = n

/-- Transport stub for witnesses: one rate-limit failure, then a good
response. -/
def retryThenOkTransport : Nat → TransportResult :=
  fun n => if n = 0 then .exn (.rateLimitError "rate limited")
           else .resp [⟨some ⟨"hello"⟩⟩]

/-- Transport stub for witnesses: every attempt is rate limited. -/
def alwaysRateLimitedTransport : Nat → TransportResult :=
  fun _ => .exn (.rateLimitError "rate limited")

/-- Transport stub: a malformed-request failure on the first attempt, then
a good response — used to exhibit that `BadRequestError` is retried. -/
def badRequestThenOkTransport : Nat → TransportResult :=
  fun n => if n = 0 then .exn (.badRequestError "malformed request")
           else .resp [⟨some ⟨"recovered"⟩⟩]

/-- Transport stub: an authentication failure, which the retryable tuple
does not catch. -/
def authFailTransport : Nat → TransportResult :=
  fun _ => .exn (.authenticationError "invalid credential")

/-- Transport stub: a transport-level success whose only choice carries a
message with empty content. -/
def emptyContentTransport : Nat → TransportResult :=
  fun _ => .resp [⟨some ⟨""⟩⟩]

/-- Transport stub: a transport-level success with no completion choices. -/
def noChoicesTransport : Nat → TransportResult :=
  fun _ => .resp []

/-- Witness technique: appends "A" to its input. -/
def appendATechnique : PromptTechnique Unit := ⟨fun s _ => .ok (s ++ "A")⟩

/-- Witness technique: appends "B" to its input. -/
def appendBTechnique : PromptTechnique Unit := ⟨fun s _ => .ok (s ++ "B")⟩

/-- Witness technique: always raises a validation error. -/
def failingTechnique : PromptTechnique Unit := ⟨fun _ _ => .error "validation error"⟩

/-- Branch lemma: a loop iteration whose transport call returns a response
object exits with one call, extracting the content or raising the
unexpected-format error according to `respContent`. -/
theorem callLoop_resp (transport : Nat → TransportResult) (maxRetries : Nat)
    (attempts : Nat) (lastE : Option TransportError)
    (h : attempts ≤ maxRetries) (cs : List Choice)
    (ht : transport attempts = .resp cs) :
    callLoop transport maxRetries attempts lastE =
      match respContent cs with
      | some content => ⟨.ok content, 1, []⟩
      | none => ⟨.error .unexpectedFormat, 1, []⟩ := by
  rw [callLoop.eq_def, if_pos h, ht]

/-- Branch lemma: a loop iteration whose transport call raises a retryable
error, with retry budget remaining, sleeps `2 ^ (attempts + 1)` and
continues with the incremented counter and the caught error recorded. -/
theorem callLoop_retry (transport : Nat → TransportResult) (maxRetries : Nat)
    (attempts : Nat) (lastE : Option TransportError)
    (h : attempts ≤ maxRetries) (e : TransportError)
    (ht : transport attempts = .exn e) (hre : isRetryable e = true)
    (h2 : attempts + 1 ≤ maxRetries) :
    callLoop transport maxRetries attempts lastE =
      ⟨(callLoop transport maxRetries (attempts + 1) (some e)).result,
       (callLoop transport maxRetries (attempts + 1) (some e)).calls + 1,
       2 ^ (attempts + 1) ::
         (callLoop transport maxRetries (attempts + 1) (some e)).sleeps⟩ := by
  rw [callLoop.eq_def, if_pos h, ht]
  simp only [hre, if_true, dif_pos h2]

/-- Branch lemma: a loop iteration whose transport call raises a retryable
error with the retry budget exhausted breaks out and raises the
exhausted-retries error from the error just caught, with no further sleep. -/
theorem callLoop_break (transport : Nat → TransportResult) (maxRetries : Nat)
    (attempts : Nat) (lastE : Option TransportError)
    (h : attempts ≤ maxRetries) (e : TransportError)
    (ht : transport attempts = .exn e) (hre : isRetryable e = true)
    (h2 : ¬(attempts + 1 ≤ maxRetries)) :
    callLoop transport maxRetries attempts lastE =
      ⟨.error (.exhausted maxRetries e), 1, []⟩ := by
  rw [callLoop.eq_def, if_pos h, ht]
  simp only [hre, if_true, dif_neg h2]

/-- Branch lemma: a loop iteration whose transport call raises an error not
caught by the retryable tuple exits immediately with the wrapped
non-retryable error. -/
theorem callLoop_fatal (transport : Nat → TransportResult) (maxRetries : Nat)
    (attempts : Nat) (lastE : Option TransportError)
    (h : attempts ≤ maxRetries) (e : TransportError)
    (ht : transport attempts = .exn e) (hre : isRetryable e = false) :
    callLoop transport maxRetries attempts lastE =
      ⟨.error (.nonRetryable e), 1, []⟩ := by
  rw [callLoop.eq_def, if_pos h, ht]
  simp only [hre, Bool.false_eq_true, if_false]

/-- Unfolding the retry loop through `k` consecutive retryable failures
followed by a transport success with extractable content: one call per
iteration, one backoff sleep of two to the power of the incremented
counter per failure. Stated for an arbitrary starting counter value. -/
theorem callLoop_success (transport : Nat → TransportResult) (maxRetries : Nat) :
    ∀ (k a : Nat) (lastE : Option TransportError), a + k ≤ maxRetries →
    (∀ i, i < k → ∃ e, transport (a + i) = .exn e ∧ isRetryable e = true) →
    ∀ cs content, transport (a + k) = .resp cs → respContent cs = some content →
    callLoop transport maxRetries a lastE =
      ⟨.ok content, k + 1, (List.range k).map (fun i => 2 ^ (a + i + 1))⟩ := by
  intro k
  induction k with
  | zero =>
    intro a lastE ha _ cs content hres hc
    rw [Nat.add_zero] at hres
    rw [callLoop_resp transport maxRetries a lastE (by omega) cs hres]
    simp [hc]
  | succ k ih =>
    intro a lastE ha hfail cs content hres hc
    obtain ⟨e, he, hre⟩ := hfail 0 (Nat.succ_pos k)
    rw [Nat.add_zero] at he
    rw [callLoop_retry transport maxRetries a lastE (by omega) e he hre (by omega)]
    have hrest := ih (a + 1) (some e) (by omega)
      (by
        intro i hi
        obtain ⟨e', he', hre'⟩ := hfail (i + 1) (by omega)
        refine ⟨e', ?_, hre'⟩
        rw [show a + 1 + i = a + (i + 1) from by omega]
        exact he')
      cs content
      (by rw [show a + 1 + k = a + (k + 1) from by omega]; exact hres) hc
    rw [hrest]
    refine congrArg₂ _ rfl ?_
    rw [List.range_succ_eq_map, List.map_cons, List.map_map]
    refine congrArg₂ _ (by norm_num) ?_
    refine List.map_congr_left fun i _ => ?_
    simp only [Function.comp_apply, Nat.succ_eq_add_one]
    congr 1
    omega

/-- Unfolding the retry loop when every attempt up to the retry bound fails
with a retryable error: one call per iteration, a sleep after every
failing attempt whose incremented counter still passes the bound check,
and finally the exhausted-retries error built from the retry bound and the
last caught exception. -/
theorem callLoop_exhausted (transport : Nat → TransportResult) (maxRetries : Nat)
    (errs : Nat → TransportError)
    (hfail : ∀ i, i ≤ maxRetries →
      transport i = .exn (errs i) ∧ isRetryable (errs i) = true) :
    ∀ (n a : Nat) (lastE : Option TransportError), a + n = maxRetries →
    callLoop transport maxRetries a lastE =
      ⟨.error (.exhausted maxRetries (errs maxRetries)), n + 1,
        (List.range n).map (fun i => 2 ^ (a + i + 1))⟩ := by
  intro n
  induction n with
  | zero =>
    intro a lastE ha
    obtain ⟨he, hre⟩ := hfail a (by omega)
    rw [callLoop_break transport maxRetries a lastE (by omega) (errs a) he hre (by omega)]
    rw [show a = maxRetries from by omega]
    simp
  | succ n ih =>
    intro a lastE ha
    obtain ⟨he, hre⟩ := hfail a (by omega)
    rw [callLoop_retry transport maxRetries a lastE (by omega) (errs a) he hre (by omega)]
    rw [ih (a + 1) (some (errs a)) (by omega)]
    refine congrArg₂ _ rfl ?_
    rw [List.range_succ_eq_map, List.map_cons, List.map_map]
    refine congrArg₂ _ (by norm_num) ?_
    refine List.map_congr_left fun i _ => ?_
    simp only [Function.comp_apply, Nat.succ_eq_add_one]
    congr 1
    omega

/-- C1: for every `max_retries ≥ 0` and every `k ≤ max_retries`, if the
transport fails with a retryable error exactly `k` times and then succeeds
with extractable content, `call_llm` returns that content, the transport
is invoked exactly `k + 1` times, and exactly `k` backoff sleeps occur
with the strictly increasing durations `2^1, 2^2, ..., 2^k` time units. -/
theorem call_llm_retry_then_success
    (max_retries k : Nat) (hk : k ≤ max_retries)
    (prompt api_key : String) (hprompt : prompt ≠ "") (hkey : api_key ≠ "")
    (transport : Nat → TransportResult)
    (hfail : ∀ i, i < k → ∃ e, transport i = .exn e ∧ isRetryable e = true)
    (cs : List Choice) (content : String)
    (hsucc : transport k = .resp cs) (hcontent : respContent cs = some content) :
    call_llm (.pstr prompt) (some api_key) transport max_retries =
      ⟨.ok content, k + 1, (List.range k).map (fun i => 2 ^ (i + 1))⟩ ∧
    ((List.range k).map (fun i => 2 ^ (i + 1))).Pairwise (· < ·) := by
  constructor
  · simp only [call_llm, if_neg hprompt, Option.getD_some, if_neg hkey]
    have h := callLoop_success transport max_retries k 0 none (by omega)
      (by simpa using hfail) cs content (by simpa using hsucc) hcontent
    simpa using h
  · exact List.Pairwise.map _
      (fun a b hab => Nat.pow_lt_pow_right (by norm_num) (by omega))
      (List.pairwise_lt_range k)

/-- Witness for C1 at `max_retries = 2`, `k = 1`: one rate-limit failure,
then success; two transport calls and one sleep of 2 time units. -/
theorem call_llm_retry_then_success_witness :
    call_llm (.pstr "hi") (some "key") retryThenOkTransport 2 =
      ⟨.ok "hello", 2, [2]⟩ ∧ ([2] : List Nat).Pairwise (· < ·) := by
  have h := call_llm_retry_then_success 2 1 (by omega) "hi" "key"
    (by decide) (by decide) retryThenOkTransport
    (by
      intro i hi
      have hi0 : i = 0 := by omega
      subst hi0
      exact ⟨.rateLimitError "rate limited", rfl, rfl⟩)
    [⟨some ⟨"hello"⟩⟩] "hello" rfl rfl
  simpa [List.range_succ, List.range_zero] using h

/-- C2: for every `max_retries ≥ 0`, if the transport fails with a
retryable error on every attempt, `call_llm` raises the exhausted-retries
error after exactly `max_retries + 1` transport attempts; the raised error
carries the configured retry bound — the attempt information the Python
message interpolates, determining the proved attempt count
`max_retries + 1` — and the cause observed on the final attempt. -/
theorem call_llm_exhausts_retries
    (max_retries : Nat) (prompt api_key : String)
    (hprompt : prompt ≠ "") (hkey : api_key ≠ "")
    (transport : Nat → TransportResult) (errs : Nat → TransportError)
    (hfail : ∀ i, i ≤ max_retries →
      transport i = .exn (errs i) ∧ isRetryable (errs i) = true) :
    call_llm (.pstr prompt) (some api_key) transport max_retries =
      ⟨.error (.exhausted max_retries (errs max_retries)), max_retries + 1,
        (List.range max_retries).map (fun i => 2 ^ (i + 1))⟩ := by
  simp only [call_llm, if_neg hprompt, Option.getD_some, if_neg hkey]
  have h := callLoop_exhausted transport max_retries errs hfail max_retries 0 none
    (by omega)
  simpa using h

/-- Witness for C2 at `max_retries = 2` with an always-rate-limited
transport: three attempts, sleeps of 2 and 4 time units, and the
exhausted-retries error wrapping the last rate-limit failure. -/
theorem call_llm_exhausts_retries_witness :
    call_llm (.pstr "hi") (some "key") alwaysRateLimitedTransport 2 =
      ⟨.error (.exhausted 2 (.rateLimitError "rate limited")), 3, [2, 4]⟩ := by
  have h := call_llm_exhausts_retries 2 "hi" "key" (by decide) (by decide)
    alwaysRateLimitedTransport (fun _ => .rateLimitError "rate limited")
    (fun i _ => ⟨rfl, rfl⟩)
  simpa [List.range_succ, List.range_zero] using h

/-- Counterexample to C3: `BadRequestError` — a malformed request — is in
the retryable `except` tuple, so a bad-request failure on the first
attempt is retried rather than failing immediately. With `max_retries = 2`
and a transport that raises `BadRequestError` once and then succeeds,
`call_llm` makes two transport attempts (not one), performs one backoff
sleep (not zero), and returns the second attempt's content instead of
failing. -/
theorem call_llm_bad_request_is_retried :
    call_llm (.pstr "hi") (some "key") badRequestThenOkTransport 2 =
      ⟨.ok "recovered", 2, [2]⟩ := by
  simp [call_llm, callLoop, badRequestThenOkTransport, respContent, isRetryable]

/-- C3 (amended): for every input, if the transport fails on the first
attempt with an error the retryable `except` tuple does not catch —
anything other than a rate-limit, bad-request, generic-provider or
service-unavailable error — `call_llm` fails immediately with the wrapped
non-retryable error after exactly one transport attempt and zero backoff
sleeps. Malformed (bad) requests are excluded: the code classifies
`BadRequestError` as retryable. -/
theorem call_llm_nonretryable_fails_immediately
    (prompt api_key : String) (hprompt : prompt ≠ "") (hkey : api_key ≠ "")
    (transport : Nat → TransportResult) (e : TransportError)
    (h0 : transport 0 = .exn e) (hfatal : isRetryable e = false)
    (max_retries : Nat) :
    call_llm (.pstr prompt) (some api_key) transport max_retries =
      ⟨.error (.nonRetryable e), 1, []⟩ := by
  simp only [call_llm, if_neg hprompt, Option.getD_some, if_neg hkey]
  exact callLoop_fatal transport max_retries 0 none (Nat.zero_le _) e h0 hfatal

/-- Witness for the amended C3: an authentication failure on the first
attempt fails immediately with one transport attempt and no sleep. -/
theorem call_llm_nonretryable_fails_immediately_witness :
    call_llm (.pstr "hi") (some "key") authFailTransport 2 =
      ⟨.error (.nonRetryable (.authenticationError "invalid credential")), 1, []⟩ :=
  call_llm_nonretryable_fails_immediately "hi" "key" (by decide) (by decide)
    authFailTransport (.authenticationError "invalid credential") rfl rfl 2

/-- Counterexample to C4: the code checks only that `response.choices` is
non-empty and that `choices[0].message` is truthy — the content string is
never inspected. A response whose only choice has a message with empty
content contains no choice with non-empty content, yet `call_llm` returns
that empty content instead of treating the response as a fatal
unexpected-format error. -/
theorem call_llm_returns_empty_content :
    call_llm (.pstr "hi") (some "key") emptyContentTransport 2 =
      ⟨.ok "", 1, []⟩ := by
  simp [call_llm, callLoop, emptyContentTransport, respContent]

/-- C4 (amended): for every transport response that succeeds at the
transport level on the first attempt, `call_llm` returns content exactly
when the response has at least one choice whose message object is present
— the content may be empty; a response with no choices, or whose first
choice has no message, is treated as the fatal unexpected-response-format
error after exactly one transport attempt, never retried. -/
theorem call_llm_response_validation
    (prompt api_key : String) (hprompt : prompt ≠ "") (hkey : api_key ≠ "")
    (transport : Nat → TransportResult) (cs : List Choice)
    (h0 : transport 0 = .resp cs) (max_retries : Nat) :
    (∀ content, respContent cs = some content →
      call_llm (.pstr prompt) (some api_key) transport max_retries =
        ⟨.ok content, 1, []⟩) ∧
    (respContent cs = none →
      call_llm (.pstr prompt) (some api_key) transport max_retries =
        ⟨.error .unexpectedFormat, 1, []⟩) ∧
    (∀ m rest, cs = ⟨some m⟩ :: rest → respContent cs = some m.content) ∧
    (respContent cs = none ↔ cs = [] ∨ ∃ rest, cs = ⟨none⟩ :: rest) := by
  have hbase :
      call_llm (.pstr prompt) (some api_key) transport max_retries =
        match respContent cs with
        | some content => ⟨.ok content, 1, []⟩
        | none => ⟨.error .unexpectedFormat, 1, []⟩ := by
    simp only [call_llm, if_neg hprompt, Option.getD_some, if_neg hkey]
    exact callLoop_resp transport max_retries 0 none (Nat.zero_le _) cs h0
  refine ⟨fun content hc => by rw [hbase, hc], fun hc => by rw [hbase, hc],
    fun m rest hcs => by subst hcs; rfl, ?_⟩
  match cs with
  | [] => simp [respContent]
  | ⟨some m⟩ :: rest => simp [respContent]
  | ⟨none⟩ :: rest => simp [respContent]

/-- Witness for the amended C4: a transport-level success with no choices
fails with the unexpected-format error after one attempt, never retried. -/
theorem call_llm_response_validation_witness :
    call_llm (.pstr "hi") (some "key") noChoicesTransport 2 =
      ⟨.error .unexpectedFormat, 1, []⟩ :=
  (call_llm_response_validation "hi" "key" (by decide) (by decide)
    noChoicesTransport [] rfl 2).2.1 rfl

/-- Counterexample to C5: when the technique's generated prompt is the
empty string, `call_llm` raises its validation `ValueError` inside
`execute`'s try block; a `ValueError` is not an `LLMError`, so the generic
`except Exception` handler at base.py lines 93-95 catches it and surfaces
a `RuntimeError` wrapper. `execute` therefore does not fail with a
validation error as the claim asserts (though it still makes zero
transport attempts and zero sleeps). -/
theorem execute_wraps_validation_error :
    PromptTechnique.execute (fun _ => .pstr "") "question" (some "key")
      noChoicesTransport 2 =
      ⟨.error (.runtimeError .valueError), 0, []⟩ := by
  simp [PromptTechnique.execute, call_llm, CallError.isLLMError]

/-- C5 (amended): for every prompt that is the empty string or not a
string, `call_llm` fails with the validation `ValueError` and makes zero
transport attempts and zero backoff sleeps; `PromptTechnique.execute`,
whenever the technique's generated prompt is such a value, likewise makes
zero transport attempts and zero backoff sleeps, but surfaces the
`RuntimeError` with which base.py's generic `except Exception` handler
wraps the validation error — not the validation error itself. -/
theorem call_llm_rejects_invalid_prompt
    (p : PyVal) (hp : p = .pstr "" ∨ p = .nonString)
    (api_key : Option String) (transport : Nat → TransportResult)
    (max_retries : Nat) :
    call_llm p api_key transport max_retries = ⟨.error .valueError, 0, []⟩ ∧
    ∀ (gen : String → PyVal) (input_text : String), gen input_text = p →
      PromptTechnique.execute gen input_text api_key transport max_retries =
        ⟨.error (.runtimeError .valueError), 0, []⟩ := by
  have h1 : call_llm p api_key transport max_retries = ⟨.error .valueError, 0, []⟩ := by
    rcases hp with h | h <;> subst h <;> simp [call_llm]
  refine ⟨h1, fun gen input_text hgen => ?_⟩
  unfold PromptTechnique.execute
  rw [hgen, h1]
  rfl

/-- Witness for the amended C5 at a non-string generated prompt: the
validation error from `call_llm`, and from `execute` the RuntimeError
wrapper around it, both with zero transport calls and zero sleeps. -/
theorem call_llm_rejects_invalid_prompt_witness :
    call_llm .nonString (some "key") noChoicesTransport 2 =
      ⟨.error .valueError, 0, []⟩ ∧
    PromptTechnique.execute (fun _ => .nonString) "question" (some "key")
      noChoicesTransport 2 = ⟨.error (.runtimeError .valueError), 0, []⟩ := by
  have h := call_llm_rejects_invalid_prompt .nonString (Or.inr rfl) (some "key")
    noChoicesTransport 2
  exact ⟨h.1, h.2 (fun _ => .nonString) "question" rfl⟩

/-- C6: for every resolved configuration whose `api_key` is absent or
empty, `call_llm` on an otherwise valid prompt fails with the
missing-credential configuration error, makes zero transport attempts and
performs zero backoff sleeps — it never retries. -/
theorem call_llm_missing_credential
    (s : String) (hs : s ≠ "") (api_key : Option String)
    (hkey : api_key.getD "" = "") (transport : Nat → TransportResult)
    (max_retries : Nat) :
    call_llm (.pstr s) api_key transport max_retries =
      ⟨.error .missingApiKey, 0, []⟩ := by
  simp [call_llm, if_neg hs, hkey]

/-- Witness for C6 at an absent key and at an empty key. -/
theorem call_llm_missing_credential_witness :
    call_llm (.pstr "hi") none noChoicesTransport 2 =
      ⟨.error .missingApiKey, 0, []⟩ ∧
    call_llm (.pstr "hi") (some "") noChoicesTransport 2 =
      ⟨.error .missingApiKey, 0, []⟩ :=
  ⟨call_llm_missing_credential "hi" (by decide) none rfl noChoicesTransport 2,
   call_llm_missing_credential "hi" (by decide) (some "") rfl noChoicesTransport 2⟩

/-- C7: a composite over `[T1, T2]` equals `T2.generate_prompt` applied to
`T1.generate_prompt`'s output whenever both stages succeed; in general the
pipeline processes its stage list strictly in order, feeding each stage's
output to the next with the same options passed unchanged to every stage,
and a failing stage aborts the pipeline with its error and no partial
output. -/
theorem composite_generate_prompt_chains :
    (∀ (Opts : Type) (T1 T2 : PromptTechnique Opts) (x : String) (opts : Opts)
       (y z : String),
      T1.generate_prompt x opts = .ok y → T2.generate_prompt y opts = .ok z →
      CompositeTechnique.generate_prompt [T1, T2] x opts = .ok z) ∧
    (∀ (Opts : Type) (t : PromptTechnique Opts) (rest : List (PromptTechnique Opts))
       (x y : String) (opts : Opts),
      t.generate_prompt x opts = .ok y →
      CompositeTechnique.generate_prompt (t :: rest) x opts =
        CompositeTechnique.generate_prompt rest y opts) ∧
    (∀ (Opts : Type) (t : PromptTechnique Opts) (rest : List (PromptTechnique Opts))
       (x : String) (opts : Opts) (err : String),
      t.generate_prompt x opts = .error err →
      CompositeTechnique.generate_prompt (t :: rest) x opts = .error err) := by
  refine ⟨?_, ?_, ?_⟩
  · intro Opts T1 T2 x opts y z h1 h2
    simp [CompositeTechnique.generate_prompt, h1, h2]
  · intro Opts t rest x y opts h1
    simp [CompositeTechnique.generate_prompt, h1]
  · intro Opts t rest x opts err h1
    simp [CompositeTechnique.generate_prompt, h1]

/-- Witness for C7: the two-stage chain on concrete appending techniques,
one stepping equation, and a failing first stage aborting a pipeline. -/
theorem composite_generate_prompt_chains_witness :
    CompositeTechnique.generate_prompt [appendATechnique, appendBTechnique] "x" () =
      .ok "xAB" ∧
    CompositeTechnique.generate_prompt [appendATechnique, appendBTechnique] "x" () =
      CompositeTechnique.generate_prompt [appendBTechnique] "xA" () ∧
    CompositeTechnique.generate_prompt [failingTechnique, appendATechnique] "x" () =
      .error "validation error" :=
  ⟨composite_generate_prompt_chains.1 Unit appendATechnique appendBTechnique
      "x" () "xA" "xAB" rfl rfl,
   composite_generate_prompt_chains.2.1 Unit appendATechnique
      [appendBTechnique] "x" "xA" () rfl,
   composite_generate_prompt_chains.2.2 Unit failingTechnique
      [appendATechnique] "x" () "validation error" rfl⟩

/-- Names determine identifiers within the registry: any two entries of
`ALL_TECHNIQUES` sharing a name carry the same identifier (keys are in
fact unique, since `ALL_TECHNIQUES` models a Python dictionary). -/
theorem allTechniques_name_functional :
    ∀ e ∈ ALL_TECHNIQUES, ∀ e' ∈ ALL_TECHNIQUES,
      e.name = e'.name → e.identifier = e'.identifier := by
  decide

/-- A binding present in the cache survives appending further bindings. -/
theorem cacheLookup_append_of_some
    (cache : List (String × TechniqueInstance)) (n : String)
    (inst : TechniqueInstance) (h : cacheLookup cache n = some inst)
    (ext : List (String × TechniqueInstance)) :
    cacheLookup (cache ++ ext) n = some inst := by
  induction cache with
  | nil => simp [cacheLookup] at h
  | cons kv rest ih =>
    simp only [List.cons_append, cacheLookup] at h ⊢
    by_cases hk : kv.1 = n
    · rw [if_pos hk] at h ⊢
      exact h
    · rw [if_neg hk] at h ⊢
      exact ih h

/-- Appending a binding for an absent key makes it the one found. -/
theorem cacheLookup_append_self
    (cache : List (String × TechniqueInstance)) (n : String)
    (h : cacheLookup cache n = none) (inst : TechniqueInstance) :
    cacheLookup (cache ++ [(n, inst)]) n = some inst := by
  induction cache with
  | nil => simp [cacheLookup]
  | cons kv rest ih =>
    simp only [cacheLookup] at h
    by_cases hk : kv.1 = n
    · simp [hk] at h
    · rw [if_neg hk] at h
      simp only [List.cons_append, cacheLookup, if_neg hk]
      exact ih h

/-- Appending a binding when the key was absent: the appended binding
answers exactly the matching key. -/
theorem cacheLookup_append_none
    (cache : List (String × TechniqueInstance)) (k n : String)
    (v : TechniqueInstance) (h : cacheLookup cache n = none) :
    cacheLookup (cache ++ [(k, v)]) n = if k = n then some v else none := by
  induction cache with
  | nil => simp [cacheLookup]
  | cons kv rest ih =>
    simp only [cacheLookup] at h
    by_cases hk : kv.1 = n
    · simp [hk] at h
    · rw [if_neg hk] at h
      simp only [List.cons_append, cacheLookup, if_neg hk]
      exact ih h

/-- After `ensureCached`, the entry's name is bound in the cache. -/
theorem ensureCached_isSome (e : RegEntry) (st : RegState) :
    (cacheLookup (ensureCached e st).cache e.name).isSome = true := by
  unfold ensureCached
  cases h : cacheLookup st.cache e.name with
  | some inst => simp [h]
  | none => simp [cacheLookup_append_self st.cache e.name h]

/-- `ensureCached` only appends to the cache. -/
theorem ensureCached_cache_extends (e : RegEntry) (st : RegState) :
    ∃ ext, (ensureCached e st).cache = st.cache ++ ext := by
  unfold ensureCached
  cases h : cacheLookup st.cache e.name with
  | some inst => exact ⟨[], by simp⟩
  | none => exact ⟨[(e.name, ⟨e.name, e.identifier, st.nextSerial⟩)], rfl⟩

/-- After `ensureCached` with a cache satisfying the identifier invariant,
the entry's name is bound to an instance whose identifier is the entry's. -/
theorem ensureCached_ident (e : RegEntry) (st : RegState)
    (he : e ∈ ALL_TECHNIQUES) (hWF : CacheIdentOK st) :
    ∃ inst, cacheLookup (ensureCached e st).cache e.name = some inst ∧
      inst.identifier = e.identifier := by
  unfold ensureCached
  cases h : cacheLookup st.cache e.name with
  | some inst => exact ⟨inst, h, hWF e.name inst h e he rfl⟩
  | none =>
    exact ⟨⟨e.name, e.identifier, st.nextSerial⟩,
      cacheLookup_append_self st.cache e.name h _, rfl⟩

/-- `ensureCached` with a registry entry preserves the identifier
invariant. -/
theorem ensureCached_identOK (e : RegEntry) (st : RegState)
    (he : e ∈ ALL_TECHNIQUES) (hWF : CacheIdentOK st) :
    CacheIdentOK (ensureCached e st) := by
  unfold ensureCached
  cases h : cacheLookup st.cache e.name with
  | some inst => exact hWF
  | none =>
    intro n inst hl e' he' hn
    cases h2 : cacheLookup st.cache n with
    | some i0 =>
      rw [cacheLookup_append_of_some st.cache n i0 h2] at hl
      injection hl with hi
      subst hi
      exact hWF n i0 h2 e' he' hn
    | none =>
      rw [cacheLookup_append_none st.cache e.name n _ h2] at hl
      by_cases hne : e.name = n
      · rw [if_pos hne] at hl
        injection hl with hi
        subst hi
        exact (allTechniques_name_functional e' he' e he (by rw [hn, hne])).symm
      · rw [if_neg hne] at hl
        exact Option.noConfusion hl

/-- One step of the filtering loop: since `ensureCached` always leaves the
entry's name bound, the step reduces to the recursive call on the ensured
state, appending the name exactly when the cached instance's identifier
starts with the category. -/
theorem listLoop_cons (c : String) (e : RegEntry) (rest : List RegEntry)
    (st : RegState) (acc : List String) (inst : TechniqueInstance)
    (hi : cacheLookup (ensureCached e st).cache e.name = some inst) :
    listLoop c (e :: rest) st acc =
      listLoop c rest (ensureCached e st)
        (if pyStartsWith inst.identifier c then acc ++ [e.name] else acc) := by
  simp only [listLoop, hi]
  by_cases hp : pyStartsWith inst.identifier c = true
  · simp [hp]
  · simp [hp]

/-- The filtering loop only appends bindings to the cache. -/
theorem listLoop_cache_extends (c : String) :
    ∀ (entries : List RegEntry) (st : RegState) (acc : List String),
    ∃ ext, (listLoop c entries st acc).2.cache = st.cache ++ ext := by
  intro entries
  induction entries with
  | nil => intro st acc; exact ⟨[], by simp [listLoop]⟩
  | cons e rest ih =>
    intro st acc
    obtain ⟨ext1, h1⟩ := ensureCached_cache_extends e st
    obtain ⟨inst, hi⟩ :=
      Option.isSome_iff_exists.mp (ensureCached_isSome e st)
    rw [listLoop_cons c e rest st acc inst hi]
    obtain ⟨ext2, h2⟩ := ih (ensureCached e st)
      (if pyStartsWith inst.identifier c then acc ++ [e.name] else acc)
    exact ⟨ext1 ++ ext2, by rw [h2, h1, List.append_assoc]⟩

/-- After the filtering loop, every processed entry's name is bound in the
cache. -/
theorem listLoop_caches_all (c : String) :
    ∀ (entries : List RegEntry) (st : RegState) (acc : List String),
    ∀ e ∈ entries,
      (cacheLookup ((listLoop c entries st acc).2).cache e.name).isSome = true := by
  intro entries
  induction entries with
  | nil =>
    intro st acc e he
    simp at he
  | cons e0 rest ih =>
    intro st acc e he
    obtain ⟨inst, hi⟩ :=
      Option.isSome_iff_exists.mp (ensureCached_isSome e0 st)
    rw [listLoop_cons c e0 rest st acc inst hi]
    rcases List.mem_cons.mp he with rfl | hmem
    · obtain ⟨ext2, h2⟩ := listLoop_cache_extends c rest (ensureCached e st)
        (if pyStartsWith inst.identifier c then acc ++ [e.name] else acc)
      rw [h2, cacheLookup_append_of_some _ _ _ hi ext2]
      rfl
    · exact ih (ensureCached e0 st) _ e hmem

/-- The filtering loop returns the accumulator extended with the names of
exactly those processed registry entries whose identifier starts with the
category string, in registry order. -/
theorem listLoop_filter (c : String) :
    ∀ (entries : List RegEntry) (st : RegState) (acc : List String),
    (∀ e ∈ entries, e ∈ ALL_TECHNIQUES) → CacheIdentOK st →
    (listLoop c entries st acc).1 =
      acc ++ (entries.filter (fun e => pyStartsWith e.identifier c)).map (·.name) := by
  intro entries
  induction entries with
  | nil =>
    intro st acc _ _
    simp [listLoop]
  | cons e rest ih =>
    intro st acc hsub hWF
    have heALL : e ∈ ALL_TECHNIQUES := hsub e (List.mem_cons_self e rest)
    obtain ⟨inst, hi, hid⟩ := ensureCached_ident e st heALL hWF
    have hWF1 : CacheIdentOK (ensureCached e st) := ensureCached_identOK e st heALL hWF
    have hsub1 : ∀ x ∈ rest, x ∈ ALL_TECHNIQUES :=
      fun x hx => hsub x (List.mem_cons_of_mem e hx)
    rw [listLoop_cons c e rest st acc inst hi, hid]
    by_cases hp : pyStartsWith e.identifier c = true
    · rw [if_pos hp, ih (ensureCached e st) (acc ++ [e.name]) hsub1 hWF1]
      simp [List.filter_cons, hp]
    · rw [if_neg hp, ih (ensureCached e st) acc hsub1 hWF1]
      simp [List.filter_cons, hp]

/-- C8: for every string `p` and every module state whose cache respects
the registry identifiers, `list_techniques` with category `p` returns
exactly the names of the registered techniques whose identifier starts
with `p`, in registry order. For the empty string the code short-circuits
through the falsy-category branch and returns all names — which coincides
with the filter, since every identifier starts with the empty string. -/
theorem list_techniques_category_filter (p : String) (st : RegState)
    (hWF : CacheIdentOK st) :
    (list_techniques (some p) st).1 =
      (ALL_TECHNIQUES.filter (fun e => pyStartsWith e.identifier p)).map (·.name) := by
  by_cases hp : p = ""
  · subst hp
    have hall : ∀ e ∈ ALL_TECHNIQUES, pyStartsWith e.identifier "" = true := by
      intro e _
      simp [pyStartsWith]
    rw [List.filter_eq_self.mpr hall]
    simp [list_techniques]
  · simp only [list_techniques, if_neg hp]
    rw [listLoop_filter p ALL_TECHNIQUES st [] (fun e he => he) hWF]
    simp

/-- Witness for C8 at the category "zz-unused", matched by no registered
identifier, from the import-time state: the empty list. -/
theorem list_techniques_category_filter_witness :
    (list_techniques (some "zz-unused") initialRegState).1 = [] := by
  have h := list_techniques_category_filter "zz-unused" initialRegState
    (by
      intro n inst hl
      simp [initialRegState, cacheLookup] at hl)
  rw [h]
  decide

/-- C9: for every registered technique name, a second `get_technique`
lookup returns exactly the instance returned (and cached) by the first,
with the module state unchanged by the second call; for every name not in
the registry, `get_technique` returns `none` without raising and leaves
the state untouched. -/
theorem get_technique_idempotent :
    (∀ (name : String) (st : RegState), (∃ e ∈ ALL_TECHNIQUES, e.name = name) →
      (get_technique name (get_technique name st).2).1 =
        (get_technique name st).1 ∧
      ((get_technique name st).1).isSome = true ∧
      (get_technique name (get_technique name st).2).2 =
        (get_technique name st).2) ∧
    (∀ (name : String) (st : RegState), CacheNamesRegistered st →
      (∀ e ∈ ALL_TECHNIQUES, e.name ≠ name) →
      get_technique name st = (none, st)) := by
  constructor
  · intro name st hreg
    cases h : cacheLookup st.cache name with
    | some inst =>
      simp [get_technique, h]
    | none =>
      have hfind : ∃ e', ALL_TECHNIQUES.find? (fun x => x.name == name) = some e' := by
        obtain ⟨e, heALL, hename⟩ := hreg
        refine Option.isSome_iff_exists.mp ?_
        rw [List.find?_isSome]
        exact ⟨e, heALL, by simp [hename]⟩
      obtain ⟨e', hfind⟩ := hfind
      have h2 : cacheLookup
          (st.cache ++ [(name, ⟨e'.name, e'.identifier, st.nextSerial⟩)]) name =
          some ⟨e'.name, e'.identifier, st.nextSerial⟩ :=
        cacheLookup_append_self st.cache name h _
      simp [get_technique, h, hfind, h2]
  · intro name st hnames hunk
    have h : cacheLookup st.cache name = none := by
      cases h : cacheLookup st.cache name with
      | none => rfl
      | some inst =>
        obtain ⟨e, heALL, hename⟩ := hnames name inst h
        exact absurd hename (hunk e heALL)
    have hfind : ALL_TECHNIQUES.find? (fun x => x.name == name) = none := by
      rw [List.find?_eq_none]
      intro x hx
      simp only [beq_iff_eq]
      exact hunk x hx
    simp [get_technique, h, hfind]

/-- Witness for C9: two lookups of "rar" from the import-time state agree
and return an instance; a lookup of the unregistered name "zz-unused"
returns `none` and leaves the state unchanged. -/
theorem get_technique_idempotent_witness :
    ((get_technique "rar" (get_technique "rar" initialRegState).2).1 =
        (get_technique "rar" initialRegState).1 ∧
      ((get_technique "rar" initialRegState).1).isSome = true ∧
      (get_technique "rar" (get_technique "rar" initialRegState).2).2 =
        (get_technique "rar" initialRegState).2) ∧
    get_technique "zz-unused" initialRegState = (none, initialRegState) := by
  refine ⟨get_technique_idempotent.1 "rar" initialRegState
      ⟨⟨"rar", "2.2.2.6"⟩, by decide, rfl⟩,
    get_technique_idempotent.2 "zz-unused" initialRegState ?_ (by decide)⟩
  intro n inst hl
  simp [initialRegState, cacheLookup] at hl

/-- C10: after `list_techniques` with a non-empty category string, the
process-scoped cache holds an instance for every registered technique name
— including those whose identifier does not match the category — and every
subsequent `get_technique` lookup of a registered name returns the cached
instance, leaving the state unchanged. -/
theorem list_techniques_populates_cache (c : String) (hc : c ≠ "") (st : RegState) :
    (∀ e ∈ ALL_TECHNIQUES,
      (cacheLookup ((list_techniques (some c) st).2).cache e.name).isSome = true) ∧
    (∀ e ∈ ALL_TECHNIQUES,
      (get_technique e.name ((list_techniques (some c) st).2)).1 =
        cacheLookup ((list_techniques (some c) st).2).cache e.name ∧
      (get_technique e.name ((list_techniques (some c) st).2)).2 =
        (list_techniques (some c) st).2) := by
  have hfull : ∀ e ∈ ALL_TECHNIQUES,
      (cacheLookup ((list_techniques (some c) st).2).cache e.name).isSome = true := by
    intro e he
    simp only [list_techniques, if_neg hc]
    exact listLoop_caches_all c ALL_TECHNIQUES st [] e he
  refine ⟨hfull, fun e he => ?_⟩
  obtain ⟨inst, hinst⟩ := Option.isSome_iff_exists.mp (hfull e he)
  constructor
  · simp [get_technique, hinst]
  · simp [get_technique, hinst]

/-- Witness for C10 at category "2.2.4" from the import-time state: the
technique "rar" (identifier "2.2.2.6", not matching "2.2.4") is cached,
and a subsequent lookup leaves the state unchanged. -/
theorem list_techniques_populates_cache_witness :
    (cacheLookup ((list_techniques (some "2.2.4") initialRegState).2).cache
      "rar").isSome = true ∧
    (get_technique "rar" ((list_techniques (some "2.2.4") initialRegState).2)).2 =
      (list_techniques (some "2.2.4") initialRegState).2 := by
  have h := list_techniques_populates_cache "2.2.4" (by decide) initialRegState
  exact ⟨h.1 ⟨"rar", "2.2.2.6"⟩ (by decide), (h.2 ⟨"rar", "2.2.2.6"⟩ (by decide)).2⟩
